import Mathlib

/-!
# Verification of `pdf_handler.py`

A shallow embedding of the table-grouping / CSV-writing pipeline of
`pdf_handler.py`.  Network and PDF-parsing effects are external capabilities:
the embedding takes their results as explicit inputs (the list of anchor
`href`s of the fetched page, the `Except`-wrapped list of raw tables returned
by the pdfplumber extraction).  Everything the module computes from those
inputs — header normalisation, grouping, pandas-style concatenation, filename
derivation, the `created_files` bookkeeping of the orchestrators — is embedded
as executable Lean functions and verified below.
-/

namespace PdfHandler

/-! ## Python string primitives -/

/-- `str.strip()` on a character list: drop whitespace at both ends. -/
def stripChars (l : List Char) : List Char :=
  ((l.dropWhile Char.isWhitespace).reverse.dropWhile Char.isWhitespace).reverse

/-- Python `s.strip()` (whitespace at both ends removed). -/
def pyStrip (s : String) : String := ⟨stripChars s.data⟩

/-- Python `s.lower()`.  `Char.toLower` lower-cases exactly the ASCII range,
which is what every header and href in the claims uses. -/
def pyLower (s : String) : String := ⟨s.data.map Char.toLower⟩

/-- The normal form `str(c).strip().lower()` used by `columns_match`
(line 11 of `pdf_handler.py`); on the string cells of the model `str` is the
identity. -/
def pyNorm (s : String) : String := pyLower (pyStrip s)

/-- `l` starts with the pattern `p` (Python `str.startswith`). -/
def startsWithChars : List Char → List Char → Bool
  | _, [] => true
  | [], _ :: _ => false
  | c :: cs, p :: ps => c == p && startsWithChars cs ps

/-- `p` occurs as a contiguous substring of `l` (Python `in` on strings). -/
def containsSub (p : List Char) : List Char → Bool
  | [] => startsWithChars [] p
  | c :: cs => startsWithChars (c :: cs) p || containsSub p cs

/-- Python `s.rstrip("/")`. -/
def rstripSlash (s : String) : String := ⟨(s.data.reverse.dropWhile (· == '/')).reverse⟩

/-- Python `s.lstrip("/")`. -/
def lstripSlash (s : String) : String := ⟨s.data.dropWhile (· == '/')⟩

/-- `os.path.basename`: the part after the last `/`. -/
def pyBasename (p : String) : String := ⟨(p.data.reverse.takeWhile (· ≠ '/')).reverse⟩

/-- `os.path.splitext(p)[0]`: everything before the last `.`, except that
leading dots (hidden-file names) never start an extension; if no dot remains
the name is returned unchanged. -/
def splitextBase (p : String) : String :=
  let dots := p.data.takeWhile (· == '.')
  let rest := p.data.dropWhile (· == '.')
  if rest.contains '.' then ⟨dots ++ ((rest.reverse.dropWhile (· ≠ '.')).drop 1).reverse⟩
  else p

/-- `os.path.join` for the shapes produced by this module (a directory joined
with a relative file name). -/
def joinPath (dir name : String) : String := dir ++ "/" ++ name

/-- `os.path.normpath`, modelled as the identity: every path this module adds
to `created_files` is already in normal form (a bare relative name
`uploaded_…` or `dir ++ "/" ++ name`), so `normpath` rewrites nothing. -/
def pyNormpath (p : String) : String := p

/-! ## `columns_match` (line 10–11) -/

/-- `columns_match(cols1, cols2)`: list equality of the
stripped-and-lower-cased column names. -/
def columns_match (cols1 cols2 : List String) : Bool :=
  cols1.map pyNorm == cols2.map pyNorm

/-! ## Extraction filter and the data model (lines 80–95) -/

/-- `pd.DataFrame(table[1:], columns=table[0])`: a header plus body rows. -/
structure DataFrame where
  columns : List String
  rows : List (List String)
deriving DecidableEq, Repr

/-- The per-table admission test of the extraction loop:
`if table and len(table) > 1` — the first row becomes the header, the rest the
body; tables with fewer than two rows yield nothing. -/
def tableToDF : List (List String) → Option DataFrame
  | [] => none
  | hdr :: body => if body = [] then none else some ⟨hdr, body⟩

/-- A header group (lines 96–105): the reference header of the first table
placed in the group, plus the member tables in encounter order. -/
structure HeaderGroup where
  reference_columns : List String
  tables : List DataFrame
deriving DecidableEq, Repr

/-- One step of the grouping loop: append `df` to the first group whose
reference header matches, else append a fresh group at the end. -/
def placeTable (groups : List HeaderGroup) (df : DataFrame) : List HeaderGroup :=
  match groups with
  | [] => [⟨df.columns, [df]⟩]
  | g :: gs =>
    if columns_match df.columns g.reference_columns then
      ⟨g.reference_columns, g.tables ++ [df]⟩ :: gs
    else
      g :: placeTable gs df

/-- The grouping loop of `process_pdf` (lines 96–105). -/
def groupTables (dfs : List DataFrame) : List HeaderGroup :=
  dfs.foldl placeTable []

/-! ## Filename derivation (lines 110–118) -/

/-- Membership in the regex class `[A-Za-z0-9_]`. -/
def isWordChar (c : Char) : Bool :=
  ('A' ≤ c && c ≤ 'Z') || ('a' ≤ c && c ≤ 'z') || ('0' ≤ c && c ≤ '9') || c == '_'

/-- `re.sub(r'[^A-Za-z0-9_]+', '_', s)`: each maximal run of non-word
characters becomes a single `_`.  The flag records whether we are inside a
run that has already produced its underscore. -/
def sanitizeRuns : Bool → List Char → List Char
  | _, [] => []
  | inRun, c :: cs =>
    if isWordChar c then c :: sanitizeRuns false cs
    else if inRun then sanitizeRuns true cs
    else '_' :: sanitizeRuns true cs

/-- `safe_part = re.sub(r'[^A-Za-z0-9_]+', '_', str(first_col))[:20]`. -/
def safePart (s : String) : String := ⟨(sanitizeRuns false s.data).take 20⟩

/-- `safe_part or 'group'`: the empty string is falsy in Python. -/
def groupFragment (first_col : String) : String :=
  if safePart first_col = "" then "group" else safePart first_col

/-- The CSV path chosen for group number `g_idx` (1-based) when `numGroups`
groups exist in total (lines 113–118). -/
def csvFilename (output_dir base_name : String) (numGroups g_idx : Nat)
    (ref_cols : List String) : String :=
  if numGroups = 1 then joinPath output_dir (base_name ++ ".csv")
  else
    let first_col := match ref_cols with
      | [] => "group_" ++ toString g_idx
      | c :: _ => c
    joinPath output_dir (base_name ++ "_" ++ groupFragment first_col ++ "_" ++ toString g_idx ++ ".csv")

/-! ## `pd.concat` (line 112)

`pd.concat(frames, ignore_index=True)` stacks rows but aligns columns by
their exact string labels: the result's columns are the union in order of
first appearance, and a row contributes `NaN` (here `none`) in every column
its own frame does not have.  The model covers frames with pairwise-distinct
column labels, which is what the pipeline's tables carry. -/

/-- Value of row `r` (from a frame with columns `cols`) in result column `c`. -/
def lookupCol (cols : List String) (r : List String) (c : String) : Option String :=
  match cols.findIdx? (fun x => x == c) with
  | some i => r.get? i
  | none => none

/-- Union of the member frames' column labels, in order of first appearance. -/
def unionCols (dfs : List DataFrame) : List String :=
  dfs.foldl (fun acc df => acc ++ df.columns.filter (fun c => !acc.contains c)) []

/-- A concatenated frame: cells are `none` where pandas would put `NaN`. -/
structure MergedDF where
  columns : List String
  rows : List (List (Option String))
deriving DecidableEq, Repr

/-- `pd.concat([t["dataframe"] for t in grp["tables"]], ignore_index=True)`. -/
def pdConcat (dfs : List DataFrame) : MergedDF :=
  let cols := unionCols dfs
  ⟨cols, (dfs.map (fun df => df.rows.map (fun r => cols.map (lookupCol df.columns r)))).flatten⟩

/-! ## `process_pdf` (lines 55–125) -/

/-- The merge-and-save loop (lines 111–122): for each group, in creation
order and with 1-based index, the chosen CSV path and the frame written
there. -/
def saveGroups (output_dir base_name : String) (numGroups : Nat) :
    Nat → List HeaderGroup → List (String × MergedDF)
  | _, [] => []
  | g_idx, g :: gs =>
    (csvFilename output_dir base_name numGroups g_idx g.reference_columns, pdConcat g.tables)
      :: saveGroups output_dir base_name numGroups (g_idx + 1) gs

/-- `process_pdf(file_path, output_dir)`, with the pdfplumber extraction
passed in as an `Except` (it raises or returns the raw tables of all pages in
order).  The result is the list of CSV files written, as (path, frame) pairs;
the list of paths is the function's return value `generated_csvs`.  The
best-effort plain-text extraction of Step 1 swallows its own errors and
touches no output, so it has no footprint in the model. -/
def process_pdf (output_dir file_path : String)
    (extraction : Except String (List (List (List String)))) :
    List (String × MergedDF) :=
  match extraction with
  | .error _ => []
  | .ok raw =>
    let tables := raw.filterMap tableToDF
    if tables = [] then []
    else
      let base_name := splitextBase (pyBasename file_path)
      let groups := groupTables tables
      saveGroups output_dir base_name groups.length 1 groups

/-! ## `find_pdf_links_on_webpage` (lines 32–53)

The HTTP fetch and HTML parse are external; the embedding receives the
`href` attributes of the page's anchor elements in document order. -/

/-- Resolution of one selected href: kept as-is when it starts with `http`,
otherwise joined to the right-trimmed base URL with a single `/` after
left-trimming the href (lines 46–50). -/
def resolveHref (url href : String) : String :=
  if startsWithChars href.data ("http".data) then href
  else rstripSlash url ++ "/" ++ lstripSlash href

/-- `find_pdf_links_on_webpage`: filter the hrefs containing `".pdf"`
case-insensitively, resolve each against the base URL, and deduplicate
(`list(set(...))`; the set's iteration order is arbitrary, so results are
compared as sets). -/
def find_pdf_links_on_webpage (url : String) (hrefs : List String) : List String :=
  ((hrefs.filter (fun h => containsSub (".pdf".data) (pyLower h).data)).map (resolveHref url)).dedup

/-! ## Orchestrators (lines 130–171) -/

/-- One metadata record of the output schema.  `pd.read_csv` of a CSV this
module just wrote is modelled by the in-memory frame that was written:
`shape`, `columns` and the three sample rows are read off it directly. -/
structure TableInfo where
  filename : String
  source_pdf : String
  shape : Nat × Nat
  columns : List String
  sample_data : List (List (Option String))
  description : String
  source : String
deriving DecidableEq, Repr

/-- Build the record for one generated CSV. -/
def mkInfo (csvPath srcPdf desc srcTag : String) (df : MergedDF) : TableInfo :=
  ⟨csvPath, srcPdf, (df.rows.length, df.columns.length), df.columns,
   df.rows.take 3, desc, srcTag⟩

/-- Python rendering of `pdf_file.filename` inside an f-string
(`None` renders as `"None"`). -/
def showOptFilename : Option String → String
  | some n => n
  | none => "None"

/-- Result of one orchestrator call: the returned info records, the
`created_files` set after the call, and every filesystem path the call
wrote (staging file and CSVs, in write order). -/
structure OrchResult where
  infos : List TableInfo
  created_files : Finset String
  written : List String

/-- `process_uploaded_pdf(pdf_file, created_files)` (lines 130–151).
`upload_filename` is `pdf_file.filename` (`none`/`""` are falsy); the upload's
bytes and the pdfplumber run on the staged file are summarised by
`extraction`; `tmpdir` is `tempfile.gettempdir()`, the default `output_dir`
of the inner `process_pdf` call. -/
def process_uploaded_pdf (tmpdir : String) (upload_filename : Option String)
    (extraction : Except String (List (List (List String))))
    (created_files : Finset String) : OrchResult :=
  let temp_pdf := match upload_filename with
    | some name => if name = "" then "uploaded_file.pdf" else "uploaded_" ++ name
    | none => "uploaded_file.pdf"
  let created1 := insert (pyNormpath temp_pdf) created_files
  let csvs := process_pdf tmpdir temp_pdf extraction
  { infos := csvs.map (fun p =>
      mkInfo p.1 temp_pdf
        ("Extracted table from uploaded PDF: " ++ showOptFilename upload_filename)
        ("uploaded_pdf") p.2),
    created_files := created1,
    written := temp_pdf :: csvs.map Prod.fst }

/-- `process_extracted_pdfs(pdf_file_paths, created_files)` (lines 153–171).
Each input path comes with the extraction outcome pdfplumber produces on it. -/
def process_extracted_pdfs (tmpdir : String)
    (pdfs : List (String × Except String (List (List (List String)))))
    (created_files : Finset String) : OrchResult :=
  pdfs.foldl
    (fun acc p =>
      let csvs := process_pdf tmpdir p.1 p.2
      { infos := acc.infos ++ csvs.map (fun q =>
          mkInfo q.1 p.1
            ("Extracted table from archive PDF: " ++ pyBasename p.1)
            ("archive_extraction") q.2),
        created_files := csvs.foldl (fun s q => insert (pyNormpath q.1) s) acc.created_files,
        written := acc.written ++ csvs.map Prod.fst })
    ⟨[], created_files, []⟩

/-! ## Helper definitions and lemmas -/

/-- All member tables of a list of groups, in group order then member order. -/
def tablesOf (gs : List HeaderGroup) : List DataFrame :=
  (gs.map HeaderGroup.tables).flatten

theorem columns_match_eq_iff (c1 c2 : List String) :
    columns_match c1 c2 = true ↔ c1.map pyNorm = c2.map pyNorm := by
  unfold columns_match
  exact beq_iff_eq

theorem columns_match_refl (c : List String) : columns_match c c = true :=
  (columns_match_eq_iff c c).mpr rfl

theorem columns_match_comm (c1 c2 : List String) :
    columns_match c1 c2 = columns_match c2 c1 := by
  unfold columns_match
  by_cases h : c1.map pyNorm = c2.map pyNorm
  · rw [h]
  · rw [beq_eq_false_iff_ne.mpr h, beq_eq_false_iff_ne.mpr (Ne.symm h)]

theorem columns_match_trans {c1 c2 c3 : List String}
    (h12 : columns_match c1 c2 = true) (h23 : columns_match c2 c3 = true) :
    columns_match c1 c3 = true :=
  (columns_match_eq_iff c1 c3).mpr
    (((columns_match_eq_iff c1 c2).mp h12).trans ((columns_match_eq_iff c2 c3).mp h23))

/-! ## Claim theorems -/

/-- C3: `columns_match` holds iff the two headers have the same length and,
position by position, equal lower-cased whitespace-trimmed column names; the
three examples of the claim behave as stated. -/
theorem claim_C3 :
    (∀ c1 c2 : List String, columns_match c1 c2 = true ↔
       (c1.length = c2.length ∧ ∀ i (h1 : i < c1.length) (h2 : i < c2.length),
          pyNorm (c1.get ⟨i, h1⟩) = pyNorm (c2.get ⟨i, h2⟩))) ∧
    columns_match ["Name", " age "] ["name", "AGE"] = true ∧
    columns_match ["Name", " age "] ["age", "name"] = false ∧
    columns_match ["Name", " age "] ["name"] = false := by
  refine ⟨fun c1 c2 => ?_, by decide, by decide, by decide⟩
  rw [columns_match_eq_iff, List.ext_get_iff]
  simp [List.length_map, List.getElem_map]

/-- C3 witness: the positional characterisation applied at a concrete pair. -/
theorem claim_C3_witness :
    columns_match ["Name", " age "] ["name", "AGE"] = true :=
  (claim_C3.1 ["Name", " age "] ["name", "AGE"]).mpr (by decide)

/-- C7: when the extraction backend raises, `process_pdf` catches the error
and returns the empty list, writing no CSV (the returned pairs are exactly
the files written) and propagating no exception. -/
theorem claim_C7 (output_dir file_path e : String) :
    process_pdf output_dir file_path (Except.error e) = [] := rfl

/-- C8: a raw table is discarded by the admission test exactly when it has
fewer than two rows, and a PDF with zero qualifying tables makes
`process_pdf` return the empty list (so zero files are written). -/
theorem claim_C8 :
    (∀ t : List (List String), tableToDF t = none ↔ t.length < 2) ∧
    (∀ (output_dir file_path : String) (ts : List (List (List String))),
       ts.filterMap tableToDF = [] →
       process_pdf output_dir file_path (Except.ok ts) = []) := by
  constructor
  · intro t
    match t with
    | [] => simp [tableToDF]
    | hdr :: body =>
      simp only [tableToDF, List.length_cons]
      by_cases h : body = []
      · simp [h]
      · simp only [h, if_false]
        constructor
        · intro hc
          exact absurd hc (by simp)
        · intro hlt
          have : body.length = 0 := by omega
          exact absurd (List.eq_nil_of_length_eq_zero this) h
  · intro output_dir file_path ts h
    simp [process_pdf, h]

/-- C8 witness: a single header-only table is discarded and produces no
output. -/
theorem claim_C8_witness :
    ([[["h"]]] : List (List (List String))).filterMap tableToDF = [] ∧
    process_pdf "/tmp" "doc.pdf" (Except.ok [[["h"]]]) = [] :=
  ⟨by decide, claim_C8.2 "/tmp" "doc.pdf" [[["h"]]] (by decide)⟩

/-- C1 evaluation at the claim's own input: the two tables group together
and a single CSV named `{base}.csv` is written, but `pd.concat` aligns the
member frames by their exact column labels, so the written table has the
four columns `["Name", "Age", "name", " AGE "]` with `NaN` padding — not the
reference header `["Name", "Age"]` with the three two-cell body rows the
claim (and the spec's MergedTable definition) requires. -/
theorem claim_C1 :
    process_pdf "/tmp" "base.pdf"
      (Except.ok [[["Name", "Age"], ["Alice", "30"], ["Bob", "25"]],
                  [["name", " AGE "], ["Carol", "40"]]]) =
    [("/tmp/base.csv",
      ⟨["Name", "Age", "name", " AGE "],
       [[some "Alice", some "30", none, none],
        [some "Bob", some "25", none, none],
        [none, none, some "Carol", some "40"]]⟩)] := by decide

theorem sanitizeRuns_all_nonword :
    ∀ l : List Char, (∀ c ∈ l, isWordChar c = false) →
      sanitizeRuns true l = [] ∧ (l ≠ [] → sanitizeRuns false l = ['_']) := by
  intro l
  induction l with
  | nil => exact fun _ => ⟨rfl, fun h => absurd rfl h⟩
  | cons c cs ih =>
    intro h
    have hc : isWordChar c = false := h c (List.mem_cons_self c cs)
    have hcs : ∀ d ∈ cs, isWordChar d = false := fun d hd => h d (List.mem_cons_of_mem c hd)
    have htrue : sanitizeRuns true cs = [] := (ih hcs).1
    constructor
    · simp [sanitizeRuns, hc, htrue]
    · intro _
      simp [sanitizeRuns, hc, htrue]

/-- C2 counterexample: with an all-symbol first column `"!"` in a two-group
run, the fragment is a single underscore, so the file is
`base___1.csv`, not the `base_group_1.csv` the claim predicts. -/
theorem claim_C2_counterexample :
    (process_pdf "/tmp" "base.pdf"
       (Except.ok [[["!"], ["a"]], [["x"], ["b"]]])).map Prod.fst =
      ["/tmp/base___1.csv", "/tmp/base_x_2.csv"] ∧
    (process_pdf "/tmp" "base.pdf"
       (Except.ok [[["!"], ["a"]], [["x"], ["b"]]])).map Prod.fst ≠
      ["/tmp/base_group_1.csv", "/tmp/base_x_2.csv"] := by decide

/-- C2 amended: a nonempty all-symbol first column name sanitises to the
single underscore `"_"` (its one non-word run collapses to `_`, which is
truthy in Python), so that is the fragment used; the literal `"group"` is
used exactly when the sanitised-truncated fragment is empty, i.e. when the
first column name is the empty string. -/
theorem claim_C2 :
    (∀ s : String, s.data ≠ [] → (∀ c ∈ s.data, isWordChar c = false) →
       groupFragment s = "_") ∧
    groupFragment "" = "group" := by
  constructor
  · intro s hne hall
    have h : sanitizeRuns false s.data = ['_'] := (sanitizeRuns_all_nonword s.data hall).2 hne
    have hsp : safePart s = "_" := by
      unfold safePart
      rw [h]
      rfl
    unfold groupFragment
    rw [hsp]
    decide
  · decide

/-- C2 witness: the amended statement applied at the all-symbol name `"!"`. -/
theorem claim_C2_witness : groupFragment "!" = "_" ∧ groupFragment "" = "group" :=
  ⟨claim_C2.1 "!" (by decide) (by decide), claim_C2.2⟩

theorem placeTable_first_match :
    ∀ (groups : List HeaderGroup) (df : DataFrame) (i : Nat) (h : i < groups.length),
      columns_match df.columns (groups.get ⟨i, h⟩).reference_columns = true →
      (∀ j (hj : j < i),
         columns_match df.columns
           (groups.get ⟨j, Nat.lt_trans hj h⟩).reference_columns = false) →
      placeTable groups df = groups.set i
        ⟨(groups.get ⟨i, h⟩).reference_columns, (groups.get ⟨i, h⟩).tables ++ [df]⟩ := by
  intro groups
  induction groups with
  | nil => intro df i h; exact absurd h (by simp)
  | cons g gs ih =>
    intro df i h hm hprior
    match i with
    | 0 =>
      simp only [List.get] at hm
      simp [placeTable, hm, List.set]
    | i + 1 =>
      have h0 : columns_match df.columns g.reference_columns = false := by
        have := hprior 0 (Nat.succ_pos i)
        simpa using this
      have h' : i < gs.length := Nat.lt_of_succ_lt_succ h
      have hm' : columns_match df.columns (gs.get ⟨i, h'⟩).reference_columns = true := by
        simpa using hm
      have hprior' : ∀ j (hj : j < i),
          columns_match df.columns
            (gs.get ⟨j, Nat.lt_trans hj h'⟩).reference_columns = false := by
        intro j hj
        have := hprior (j + 1) (Nat.succ_lt_succ hj)
        simpa using this
      simp [placeTable, h0, List.set, ih df i h' hm' hprior']

theorem placeTable_no_match :
    ∀ (groups : List HeaderGroup) (df : DataFrame),
      (∀ g ∈ groups, columns_match df.columns g.reference_columns = false) →
      placeTable groups df = groups ++ [⟨df.columns, [df]⟩] := by
  intro groups
  induction groups with
  | nil => intro df _; rfl
  | cons g gs ih =>
    intro df h
    have h0 : columns_match df.columns g.reference_columns = false :=
      h g (List.mem_cons_self g gs)
    simp [placeTable, h0, ih df (fun g2 hg2 => h g2 (List.mem_cons_of_mem g hg2))]

/-- C4: the grouping step appends each table to the first group (in creation
order) whose reference header matches, creates a new group at the end of the
list only when none matches, and on the example T1(A), T2(B), T3(A) yields
the A-group `[T1, T3]` followed by the B-group `[T2]`. -/
theorem claim_C4 :
    (∀ (groups : List HeaderGroup) (df : DataFrame) (i : Nat) (h : i < groups.length),
       columns_match df.columns (groups.get ⟨i, h⟩).reference_columns = true →
       (∀ j (hj : j < i),
          columns_match df.columns
            (groups.get ⟨j, Nat.lt_trans hj h⟩).reference_columns = false) →
       placeTable groups df = groups.set i
         ⟨(groups.get ⟨i, h⟩).reference_columns, (groups.get ⟨i, h⟩).tables ++ [df]⟩) ∧
    (∀ (groups : List HeaderGroup) (df : DataFrame),
       (∀ g ∈ groups, columns_match df.columns g.reference_columns = false) →
       placeTable groups df = groups ++ [⟨df.columns, [df]⟩]) ∧
    groupTables [⟨["a"], [["1"]]⟩, ⟨["b"], [["2"]]⟩, ⟨["A"], [["3"]]⟩] =
      [⟨["a"], [⟨["a"], [["1"]]⟩, ⟨["A"], [["3"]]⟩]⟩, ⟨["b"], [⟨["b"], [["2"]]⟩]⟩] :=
  ⟨placeTable_first_match, placeTable_no_match, by decide⟩

/-- C4 witness: a table whose header matches the second of two groups is
appended to that group, the first group being a non-match. -/
theorem claim_C4_witness :
    placeTable [⟨["b"], []⟩, ⟨["a"], []⟩] ⟨["A"], [["3"]]⟩ =
      [⟨["b"], []⟩, ⟨["a"], [⟨["A"], [["3"]]⟩]⟩] := by
  have h := claim_C4.1 [⟨["b"], []⟩, ⟨["a"], []⟩] ⟨["A"], [["3"]]⟩ 1
    (by decide) (by decide) (by decide)
  simpa using h

/-- C9: `find_pdf_links_on_webpage` keeps exactly the hrefs containing
`".pdf"` case-insensitively; an href starting with `http` is kept unchanged
and any other href is joined to the right-trimmed base with a single `/`
after left-trimming; the result is deduplicated (nodup, membership is
membership in the resolved selection); the claim's three-anchor page yields
exactly the two expected URLs. -/
theorem claim_C9 :
    (∀ (url : String) (hrefs : List String) (x : String),
       x ∈ find_pdf_links_on_webpage url hrefs ↔
         ∃ h, h ∈ hrefs ∧ containsSub (".pdf".data) ((pyLower h).data) = true ∧
           x = resolveHref url h) ∧
    (∀ url href : String, startsWithChars href.data ("http".data) = true →
       resolveHref url href = href) ∧
    (∀ url href : String, startsWithChars href.data ("http".data) = false →
       resolveHref url href = rstripSlash url ++ "/" ++ lstripSlash href) ∧
    (∀ (url : String) (hrefs : List String),
       (find_pdf_links_on_webpage url hrefs).Nodup) ∧
    ((find_pdf_links_on_webpage ("http://site.com/docs")
        ["report.pdf", "http://x.com/f.pdf", "report.pdf"]).toFinset =
      {"http://site.com/docs/report.pdf", "http://x.com/f.pdf"} ∧
     (find_pdf_links_on_webpage ("http://site.com/docs")
        ["report.pdf", "http://x.com/f.pdf", "report.pdf"]).length = 2) := by
  refine ⟨?_, ?_, ?_, ?_, by decide, by decide⟩
  · intro url hrefs x
    unfold find_pdf_links_on_webpage
    rw [List.mem_dedup, List.mem_map]
    constructor
    · rintro ⟨h, hmem, hres⟩
      rw [List.mem_filter] at hmem
      exact ⟨h, hmem.1, hmem.2, hres.symm⟩
    · rintro ⟨h, hmem, hsel, hx⟩
      exact ⟨h, List.mem_filter.mpr ⟨hmem, hsel⟩, hx.symm⟩
  · intro url href h
    simp [resolveHref, h]
  · intro url href h
    simp [resolveHref, h]
  · intro url hrefs
    exact List.nodup_dedup _

/-- C9 witness: an absolute (http-prefixed) href is kept unchanged. -/
theorem claim_C9_witness :
    resolveHref ("http://site.com/docs") ("http://x.com/f.pdf") = "http://x.com/f.pdf" :=
  claim_C9.2.1 ("http://site.com/docs") ("http://x.com/f.pdf") (by decide)

theorem tablesOf_cons (g : HeaderGroup) (gs : List HeaderGroup) :
    tablesOf (g :: gs) = g.tables ++ tablesOf gs := by
  simp [tablesOf]

theorem tablesOf_placeTable (gs : List HeaderGroup) (d : DataFrame) :
    List.Perm (tablesOf (placeTable gs d)) (tablesOf gs ++ [d]) := by
  induction gs with
  | nil =>
    simp [placeTable, tablesOf]
  | cons g gs ih =>
    by_cases hm : columns_match d.columns g.reference_columns = true
    · have hL : tablesOf (placeTable (g :: gs) d) = (g.tables ++ [d]) ++ tablesOf gs := by
        simp [placeTable, hm, tablesOf]
      rw [hL, tablesOf_cons, List.append_assoc, List.append_assoc]
      exact List.Perm.append_left g.tables (List.perm_append_comm)
    · have hm' : columns_match d.columns g.reference_columns = false := by
        cases hcase : columns_match d.columns g.reference_columns
        · rfl
        · exact absurd hcase hm
      have hL : tablesOf (placeTable (g :: gs) d) = g.tables ++ tablesOf (placeTable gs d) := by
        simp [placeTable, hm', tablesOf]
      rw [hL, tablesOf_cons, List.append_assoc]
      exact List.Perm.append_left g.tables ih

theorem tablesOf_foldl (l : List DataFrame) :
    ∀ acc, List.Perm (tablesOf (l.foldl placeTable acc)) (tablesOf acc ++ l) := by
  induction l with
  | nil =>
    intro acc
    simp
  | cons d l ih =>
    intro acc
    have h1 := ih (placeTable acc d)
    have h2 : List.Perm (tablesOf (placeTable acc d) ++ l) ((tablesOf acc ++ [d]) ++ l) :=
      List.Perm.append_right l (tablesOf_placeTable acc d)
    have h3 : (tablesOf acc ++ [d]) ++ l = tablesOf acc ++ (d :: l) := by simp
    simpa [h3] using (h1.trans h2)

theorem placeTable_members :
    ∀ (gs : List HeaderGroup) (d : DataFrame),
      (∀ g ∈ gs, ∀ t ∈ g.tables, columns_match t.columns g.reference_columns = true) →
      ∀ g ∈ placeTable gs d, ∀ t ∈ g.tables,
        columns_match t.columns g.reference_columns = true := by
  intro gs
  induction gs with
  | nil =>
    intro d _ g hg t ht
    simp [placeTable] at hg
    subst hg
    simp at ht
    subst ht
    exact columns_match_refl _
  | cons g0 gs ih =>
    intro d h g hg t ht
    by_cases hm : columns_match d.columns g0.reference_columns = true
    · rw [show placeTable (g0 :: gs) d =
          ⟨g0.reference_columns, g0.tables ++ [d]⟩ :: gs by simp [placeTable, hm]] at hg
      rcases List.mem_cons.mp hg with hg1 | hg2
      · subst hg1
        rcases List.mem_append.mp ht with ht1 | ht2
        · exact h g0 (List.mem_cons_self g0 gs) t ht1
        · simp at ht2
          subst ht2
          exact hm
      · exact h g (List.mem_cons_of_mem g0 hg2) t ht
    · have hm' : columns_match d.columns g0.reference_columns = false := by
        cases hcase : columns_match d.columns g0.reference_columns
        · rfl
        · exact absurd hcase hm
      rw [show placeTable (g0 :: gs) d = g0 :: placeTable gs d by
          simp [placeTable, hm']] at hg
      rcases List.mem_cons.mp hg with hg1 | hg2
      · rw [hg1] at ht ⊢
        exact h g0 (List.mem_cons_self g0 gs) t ht
      · exact ih d (fun g2 hg2 t2 ht2 => h g2 (List.mem_cons_of_mem g0 hg2) t2 ht2) g hg2 t ht

theorem placeTable_refMap :
    ∀ (gs : List HeaderGroup) (d : DataFrame),
      (placeTable gs d).map HeaderGroup.reference_columns =
        gs.map HeaderGroup.reference_columns ∨
      ((∀ g ∈ gs, columns_match d.columns g.reference_columns = false) ∧
       (placeTable gs d).map HeaderGroup.reference_columns =
         gs.map HeaderGroup.reference_columns ++ [d.columns]) := by
  intro gs
  induction gs with
  | nil =>
    intro d
    exact Or.inr ⟨by simp, by simp [placeTable]⟩
  | cons g0 gs ih =>
    intro d
    by_cases hm : columns_match d.columns g0.reference_columns = true
    · left
      simp [placeTable, hm]
    · have hm' : columns_match d.columns g0.reference_columns = false := by
        cases hcase : columns_match d.columns g0.reference_columns
        · rfl
        · exact absurd hcase hm
      rcases ih d with h1 | ⟨hall, h2⟩
      · left
        simp [placeTable, hm', h1]
      · right
        refine ⟨?_, by simp [placeTable, hm', h2]⟩
        intro g hg
        rcases List.mem_cons.mp hg with hg1 | hg2
        · subst hg1
          exact hm'
        · exact hall g hg2

theorem placeTable_pairwiseRefs (gs : List HeaderGroup) (d : DataFrame)
    (hp : List.Pairwise (fun r1 r2 => columns_match r1 r2 = false)
            (gs.map HeaderGroup.reference_columns)) :
    List.Pairwise (fun r1 r2 => columns_match r1 r2 = false)
      ((placeTable gs d).map HeaderGroup.reference_columns) := by
  rcases placeTable_refMap gs d with h | ⟨hall, h⟩
  · rw [h]
    exact hp
  · rw [h, List.pairwise_append]
    refine ⟨hp, List.pairwise_singleton _ _, ?_⟩
    intro r hr b hb
    simp at hb
    subst hb
    rcases List.mem_map.mp hr with ⟨g, hg, rfl⟩
    rw [columns_match_comm]
    exact hall g hg

theorem foldl_placeTable_pres {P : List HeaderGroup → Prop}
    (hstep : ∀ gs d, P gs → P (placeTable gs d)) :
    ∀ (l : List DataFrame) (acc), P acc → P (l.foldl placeTable acc) := by
  intro l
  induction l with
  | nil =>
    intro acc h
    exact h
  | cons d l ih =>
    intro acc h
    exact ih (placeTable acc d) (hstep acc d h)

/-- C10: header matching is an equivalence relation (reflexive, symmetric,
transitive), and grouping partitions the qualifying tables accordingly: the
members of all groups are a permutation of the input tables (each table sits
in exactly one group, with multiplicity), every member matches its group's
reference header, and distinct groups carry pairwise non-matching reference
headers. -/
theorem claim_C10 :
    (∀ c : List String, columns_match c c = true) ∧
    (∀ c1 c2 : List String, columns_match c1 c2 = true → columns_match c2 c1 = true) ∧
    (∀ c1 c2 c3 : List String, columns_match c1 c2 = true →
       columns_match c2 c3 = true → columns_match c1 c3 = true) ∧
    (∀ dfs : List DataFrame, List.Perm (tablesOf (groupTables dfs)) dfs) ∧
    (∀ dfs : List DataFrame, ∀ g ∈ groupTables dfs, ∀ t ∈ g.tables,
       columns_match t.columns g.reference_columns = true) ∧
    (∀ dfs : List DataFrame,
       List.Pairwise (fun g1 g2 =>
         columns_match g1.reference_columns g2.reference_columns = false)
         (groupTables dfs)) := by
  refine ⟨columns_match_refl, ?_, fun c1 c2 c3 => columns_match_trans, ?_, ?_, ?_⟩
  · intro c1 c2 h
    exact (columns_match_comm c2 c1).trans h
  · intro dfs
    have h := tablesOf_foldl dfs []
    simpa [groupTables, tablesOf] using h
  · intro dfs
    exact foldl_placeTable_pres placeTable_members dfs [] (by simp)
  · intro dfs
    have h := foldl_placeTable_pres
      (P := fun gs => List.Pairwise (fun r1 r2 => columns_match r1 r2 = false)
              (gs.map HeaderGroup.reference_columns))
      placeTable_pairwiseRefs dfs [] (by simp)
    exact (List.pairwise_map).mp h

/-- C10 witness: symmetry applied at a concrete matching pair. -/
theorem claim_C10_witness : columns_match ["a"] ["A"] = true :=
  claim_C10.2.1 ["A"] ["a"] (by decide)

theorem saveGroups_length (d b : String) (n : Nat) :
    ∀ (gs : List HeaderGroup) (k : Nat), (saveGroups d b n k gs).length = gs.length := by
  intro gs
  induction gs with
  | nil =>
    intro k
    rfl
  | cons g gs ih =>
    intro k
    simp [saveGroups, ih]

theorem saveGroups_getElem (d b : String) (n : Nat) :
    ∀ (gs : List HeaderGroup) (k i : Nat) (h : i < gs.length),
      (saveGroups d b n k gs)[i]? =
        some (csvFilename d b n (k + i) (gs[i]).reference_columns, pdConcat (gs[i]).tables) := by
  intro gs
  induction gs with
  | nil =>
    intro k i h
    exact absurd h (by simp)
  | cons g gs ih =>
    intro k i h
    match i with
    | 0 => simp [saveGroups]
    | i + 1 =>
      have h2 : i < gs.length := Nat.lt_of_succ_lt_succ h
      have h3 := ih (k + 1) i h2
      have h4 : k + 1 + i = k + (i + 1) := by omega
      rw [h4] at h3
      simpa [saveGroups] using h3

/-- C6: when exactly one group exists the CSV is `{base}.csv`; with more
than one group, group `i` (0-based here, so index fragment `i+1`) is written
to `{base}_{fragment}_{i+1}.csv`, where the fragment is the sanitised first
reference-column name (runs of characters outside `[A-Za-z0-9_]` collapsed
to `_`, truncated to 20 characters, the literal `group` if empty); the
number of CSVs equals the number of groups, and the spec's two-header
example produces `{base}_A_1.csv` and `{base}_X_2.csv`. -/
theorem claim_C6 :
    (∀ (output_dir file_path : String) (ts : List (List (List String))),
       (process_pdf output_dir file_path (Except.ok ts)).length =
         (groupTables (ts.filterMap tableToDF)).length) ∧
    (∀ (output_dir file_path : String) (ts : List (List (List String))),
       (groupTables (ts.filterMap tableToDF)).length = 1 →
       (process_pdf output_dir file_path (Except.ok ts)).map Prod.fst =
         [joinPath output_dir (splitextBase (pyBasename file_path) ++ ".csv")]) ∧
    (∀ (output_dir file_path : String) (ts : List (List (List String)))
       (i : Nat) (h : i < (groupTables (ts.filterMap tableToDF)).length),
       1 < (groupTables (ts.filterMap tableToDF)).length →
       ∀ c cs, (groupTables (ts.filterMap tableToDF))[i].reference_columns = c :: cs →
       ((process_pdf output_dir file_path (Except.ok ts)).map Prod.fst)[i]? =
         some (joinPath output_dir (splitextBase (pyBasename file_path) ++ "_" ++
           groupFragment c ++ "_" ++ toString (i + 1) ++ ".csv"))) ∧
    ((process_pdf ("/tmp") ("base.pdf")
        (Except.ok [[["A", "B"], ["1", "2"]], [["X", "Y"], ["3", "4"]]])).map Prod.fst =
      ["/tmp/base_A_1.csv", "/tmp/base_X_2.csv"]) := by
  refine ⟨?_, ?_, ?_, by decide⟩
  · intro output_dir file_path ts
    by_cases hts : ts.filterMap tableToDF = []
    · simp [process_pdf, hts, groupTables]
    · simp [process_pdf, hts, saveGroups_length]
  · intro output_dir file_path ts h1
    by_cases hts : ts.filterMap tableToDF = []
    · rw [hts] at h1
      simp [groupTables] at h1
    · rcases List.length_eq_one.mp h1 with ⟨g, hg⟩
      simp [process_pdf, hts, hg, saveGroups, csvFilename]
  · intro output_dir file_path ts i h hgt c cs href
    have hts : ts.filterMap tableToDF ≠ [] := by
      intro hcon
      rw [hcon] at hgt
      simp [groupTables] at hgt
    have hn : (groupTables (ts.filterMap tableToDF)).length ≠ 1 := Nat.ne_of_gt hgt
    have hmain := saveGroups_getElem output_dir (splitextBase (pyBasename file_path))
      (groupTables (ts.filterMap tableToDF)).length
      (groupTables (ts.filterMap tableToDF)) 1 i h
    have harith : 1 + i = i + 1 := by omega
    rw [harith, href] at hmain
    have hproc : process_pdf output_dir file_path (Except.ok ts) =
        saveGroups output_dir (splitextBase (pyBasename file_path))
          (groupTables (ts.filterMap tableToDF)).length 1
          (groupTables (ts.filterMap tableToDF)) := by
      simp [process_pdf, hts]
    rw [hproc, List.getElem?_map, hmain]
    simp [csvFilename, hn]

/-- C6 witness: a single-group document is written to `{base}.csv`. -/
theorem claim_C6_witness :
    (process_pdf ("/tmp") ("base.pdf")
       (Except.ok [[["Name", "Age"], ["r", "1"]]])).map Prod.fst = ["/tmp/base.csv"] := by
  have h := claim_C6.2.1 ("/tmp") ("base.pdf") [[["Name", "Age"], ["r", "1"]]] (by decide)
  simpa using h

/-- C5 evaluation: on an uploaded PDF with one extracted table,
`process_uploaded_pdf` writes the staged PDF `uploaded_doc.pdf` and the CSV
`/tmp/uploaded_doc.csv`, but adds only the staged PDF to `created_files`:
the generated CSV is written yet never added, contradicting the claim (its
sibling `process_extracted_pdfs` does add every CSV it writes, as the second
half shows). -/
theorem claim_C5 :
    ((process_uploaded_pdf ("/tmp") (some ("doc.pdf")) (Except.ok [[["h"], ["v"]]]) ∅).written =
       ["uploaded_doc.pdf", "/tmp/uploaded_doc.csv"] ∧
     (process_uploaded_pdf ("/tmp") (some ("doc.pdf")) (Except.ok [[["h"], ["v"]]]) ∅).created_files =
       {"uploaded_doc.pdf"} ∧
     "/tmp/uploaded_doc.csv" ∉
       (process_uploaded_pdf ("/tmp") (some ("doc.pdf")) (Except.ok [[["h"], ["v"]]]) ∅).created_files) ∧
    ((process_extracted_pdfs ("/tmp") [("a.pdf", Except.ok [[["h"], ["v"]]])] ∅).written =
       ["/tmp/a.csv"] ∧
     (process_extracted_pdfs ("/tmp") [("a.pdf", Except.ok [[["h"], ["v"]]])] ∅).created_files =
       {"/tmp/a.csv"}) := by decide

end PdfHandler
